import Mathlib

/-!
Verification of the AWS signing HTTP client decorator (`client.go`).

The development shallowly embeds the Go source:

* `EscapePath` embeds `rest.EscapePath` from the AWS SDK (the escaping
  utility called at `client.go:103`), operating on paths as lists of bytes.
* `normalizeURL` embeds the scheme/path normalization performed at
  `client.go:100-104`.
* `New` embeds the constructor at `client.go:58-89`, with the process-wide
  default client and default transport made explicit as a `World` record.
* `Signer.RoundTrip` embeds the request interception at `client.go:93-147`.
  The external collaborators (the AWS v4 signer and the inner transport)
  are behaviour functions stored in the `Signer` record, and the model
  returns a trace of collaborator invocations alongside the result so that
  "the signer was (not) invoked" and "the request was (not) forwarded" are
  statable.

Go strings are byte sequences; paths are modelled as `List Nat` of byte
values.  Header maps are modelled as functions from key to value list
(the keys used by the code, `Authorization` and `Date`, are already in
canonical form).  Times are opaque instants (`Nat`), and the RFC3339
formatter is an arbitrary function parameter of `RoundTrip`.
-/

namespace AwsSigning

/-- True when the list `p` is an initial segment of `l` (the semantics of
`strings.HasPrefix(l, p)` on byte/char sequences). -/
def startsWith [BEq α] : List α → List α → Bool
  | [], _ => true
  | _ :: _, [] => false
  | p :: ps, x :: xs => p == x && startsWith ps xs

/-- True when `pat` occurs contiguously inside `l` (the semantics of
`strings.Contains(l, pat)`). -/
def containsSeq [BEq α] (pat : List α) : List α → Bool
  | [] => startsWith pat ([] : List α)
  | x :: xs => startsWith pat (x :: xs) || containsSeq pat xs

/-- Embeds the `noEscape` table of the AWS SDK `rest` package: bytes that are
never percent-escaped (ASCII letters, digits, `-`, `.`, `_`, `~`). -/
def noEscape (c : Nat) : Bool :=
  (65 ≤ c && c ≤ 90) || (97 ≤ c && c ≤ 122) || (48 ≤ c && c ≤ 57) ||
    c == 45 || c == 46 || c == 95 || c == 126

/-- Upper-case hexadecimal digit byte for a nibble, as produced by the
`%%%02X` format in `rest.EscapePath`. -/
def hexDigit (n : Nat) : Nat := if n < 10 then 48 + n else 55 + n

/-- Escaped form of one path byte: kept verbatim when in `noEscape` (or a
slash while `encodeSep` is false), otherwise `%XX` with upper-case hex. -/
def escapeByte (c : Nat) (encodeSep : Bool) : List Nat :=
  if noEscape c || (c == 47 && !encodeSep) then [c]
  else [37, hexDigit (c / 16), hexDigit (c % 16)]

/-- Embeds `rest.EscapePath(path, encodeSep)` from the AWS SDK: escape every
byte of the path except the `noEscape` set, keeping `/` unescaped when
`encodeSep` is false. -/
def EscapePath : List Nat → Bool → List Nat
  | [], _ => []
  | c :: cs, es => escapeByte c es ++ EscapePath cs es

/-- The byte sequence of the string `%2C` (`%` is 37, `2` is 50, `C` is 67). -/
def p2c : List Nat := [37, 50, 67]

/-- A URL as the decorator sees it: scheme plus raw (escaped) path bytes. -/
structure URL where
  scheme : String
  rawPath : List Nat
deriving DecidableEq

/-- Embeds `client.go:100-104`: force the scheme to `https`; if the raw path
contains `%2C`, re-escape it with `rest.EscapePath(path, false)`. -/
def normalizeURL (u : URL) : URL :=
  let u1 : URL := { u with scheme := "https" }
  if containsSeq p2c u1.rawPath then { u1 with rawPath := EscapePath u1.rawPath false }
  else u1

/-- A body reader backed by a byte slice with a read position: the model of
`bytes.NewReader(d)` (wrapped in a `NopCloser`). -/
structure ByteReader where
  data : List Nat
  pos : Nat
deriving DecidableEq

/-- Reading a `ByteReader` to the end (`ioutil.ReadAll`): yields the bytes
from the current position and leaves the reader at the end. -/
def ByteReader.readToEnd (r : ByteReader) : List Nat × ByteReader :=
  (r.data.drop r.pos, { r with pos := r.data.length })

/-- Outcome of `ioutil.ReadAll` on a request body. -/
inductive ReadOutcome where
  | ok (data : List Nat)
  | err (msg : String)
deriving DecidableEq

/-- A request body: either an arbitrary original reader, summarised by the
outcome its full read would produce, or the decorator's buffered
replacement `ioutil.NopCloser(bytes.NewReader(d))`. -/
inductive Body where
  | stream (res : ReadOutcome)
  | buffered (r : ByteReader)
deriving DecidableEq

/-- Full read of a body, the model of `ioutil.ReadAll(req.Body)`. -/
def Body.readAll : Body → ReadOutcome
  | Body.stream res => res
  | Body.buffered r => ReadOutcome.ok (r.data.drop r.pos)

/-- Header maps, keyed by canonical header name; a missing key reads as the
empty value list. -/
abbrev Headers := String → List String

/-- Embeds `req.Header.Set(k, v)`: replace the value list of `k` by `[v]`. -/
def setHeader (hs : Headers) (k v : String) : Headers :=
  fun q => if q = k then [v] else hs q

/-- An outbound HTTP request: headers, URL and optional body. -/
structure Request where
  headers : Headers
  url : URL
  body : Option Body

/-- An opaque HTTP response. -/
structure Response where
  id : Nat
deriving DecidableEq

/-- Outcome of `v4.Signer.Sign`: an error, or success together with the
request headers after the signer's header mutations (the v4 signer only
touches headers, never the URL or the body). -/
inductive SignOutcome where
  | ok (headers : Headers)
  | err (msg : String)

/-- Collaborator invocations recorded during a round trip: a call of
`v4.Sign(req, body, service, region, time)` and a call of the inner
transport `RoundTrip(req)`. -/
inductive Event where
  | signed (req : Request) (bodyArg : Option (List Nat)) (service region : String) (ts : Nat)
  | forwarded (req : Request)

/-- True exactly on `Event.forwarded` events. -/
def isForwardEvent : Event → Bool
  | Event.forwarded _ => true
  | _ => false

/-- True exactly on `Event.signed` events. -/
def isSignEvent : Event → Bool
  | Event.signed _ _ _ _ _ => true
  | _ => false

/-- The `Sign` arguments (body bytes or nil, service, region, timestamp) of a
`signed` event, used to state which invocations of the signer occurred. -/
def signArgsOf : Event → Option (Option (List Nat) × String × String × Nat)
  | Event.signed _ b svc reg ts => some (b, svc, reg, ts)
  | Event.forwarded _ => none

/-- The decorator (`Signer` struct of `client.go:19-25`), with the external
collaborators as behaviour functions: `v4` maps (request, body bytes or
nil, timestamp) to the signing outcome, `transport` maps a request to the
inner round trip result `(response, error)`. -/
structure Signer where
  transport : Request → Option Response × Option String
  v4 : Request → Option (List Nat) → Nat → SignOutcome
  service : String
  region : String

/-- Result of a round trip through the decorator: the returned response and
error, the trace of collaborator invocations, and the request object as
mutated in place by the decorator. -/
structure RTOut where
  resp : Option Response
  err : Option String
  events : List Event
  finalReq : Request

/-- Embeds `client.go:95` — the already-signed check: the `Authorization`
header is present with a nonempty value list whose first value starts
with `AWS4`. -/
def alreadySigned (req : Request) : Bool :=
  match req.headers "Authorization" with
  | [] => false
  | v :: _ => startsWith "AWS4".toList v.toList

/-- The request after steps 2-4 of `Signer.RoundTrip` (`client.go:100-106`):
URL normalized and `Date` header set to the formatted current time. -/
def presignReq (fmt : Nat → String) (now : Nat) (req : Request) : Request :=
  let req1 : Request := { req with url := normalizeURL req.url }
  { req1 with headers := setHeader req1.headers "Date" (fmt now) }

/-- Embeds `Signer.RoundTrip` (`client.go:93-147`).  `fmt` models
`time.Time.Format(time.RFC3339)` and `now` the `time.Now()` taken at
`client.go:105`.  In the body branch of the Go source the error returned
by `v4.Sign` at `client.go:126` is assigned to a variable declared by
`:=` inside the switch case at `client.go:118`, which shadows the `err`
declared at `client.go:110`; the check at `client.go:130` reads the outer
variable, so in that branch a signing error is not observed and the
request is forwarded regardless.  The model reproduces this: in the body
branch both `SignOutcome` cases fall through to the inner transport. -/
def Signer.RoundTrip (s : Signer) (fmt : Nat → String) (now : Nat) (req : Request) : RTOut :=
  if alreadySigned req then
    { resp := (s.transport req).1, err := (s.transport req).2,
      events := [Event.forwarded req], finalReq := req }
  else
    let rq := presignReq fmt now req
    match req.body with
    | none =>
      match s.v4 rq none now with
      | SignOutcome.err msg =>
        { resp := none, err := some msg,
          events := [Event.signed rq none s.service s.region now], finalReq := rq }
      | SignOutcome.ok hs =>
        let rq2 : Request := { rq with headers := hs }
        { resp := (s.transport rq2).1, err := (s.transport rq2).2,
          events := [Event.signed rq none s.service s.region now, Event.forwarded rq2],
          finalReq := rq2 }
    | some b =>
      match b.readAll with
      | ReadOutcome.err msg =>
        { resp := none, err := some msg, events := [], finalReq := rq }
      | ReadOutcome.ok d =>
        let rq2 : Request := { rq with body := some (Body.buffered ⟨d, 0⟩) }
        match s.v4 rq2 (some d) now with
        | SignOutcome.err _ =>
          { resp := (s.transport rq2).1, err := (s.transport rq2).2,
            events := [Event.signed rq2 (some d) s.service s.region now, Event.forwarded rq2],
            finalReq := rq2 }
        | SignOutcome.ok hs =>
          let rq3 : Request := { rq2 with headers := hs }
          { resp := (s.transport rq3).1, err := (s.transport rq3).2,
            events := [Event.signed rq2 (some d) s.service s.region now, Event.forwarded rq3],
            finalReq := rq3 }

/-- A context logger reference: the discarding default built at
`client.go:72-74`, or a caller-supplied one. -/
inductive Logger where
  | discard
  | custom (id : Nat)
deriving DecidableEq

/-- The structural view of a transport used for client wiring: an opaque base
transport, or the signing decorator (`Signer` struct) wrapping an inner
transport with its v4 signer, service, region and logger fields. -/
inductive Transport where
  | base (id : Nat)
  | signerWrap (inner : Transport) (v4 : Nat) (service region : String) (logger : Logger)
deriving DecidableEq

/-- An `http.Client`, reduced to the field the code touches: its transport
(`nil` when unset). -/
structure Client where
  transport : Option Transport
deriving DecidableEq

/-- The process-wide globals the code uses: `http.DefaultClient` and
`http.DefaultTransport`, made explicit state. -/
structure World where
  defaultClient : Client
  defaultTransport : Transport
deriving DecidableEq

/-- The configuration errors of `client.go:38-48`. -/
inductive NewError where
  | MissingSignerError
  | MissingServiceError
  | MissingRegionError
deriving DecidableEq

/-- True exactly on `Except.ok` values. -/
def isOkE : Except ε α → Bool
  | Except.ok _ => true
  | Except.error _ => false

/-- Embeds `New` (`client.go:58-89`) with the process-wide globals explicit.
The nil checks run in source order; a nil client is replaced by the
default client, a nil logger by the discarding logger; the captured inner
transport falls back to the default transport; finally the chosen
client's transport field is overwritten with the decorator.  When the
caller passed no client the overwritten client is the process-wide
default client, so the returned world records the mutation. -/
def New (v4s : Option Nat) (client : Option Client) (service region : String)
    (cl : Option Logger) (w : World) : Except NewError (Client × World) :=
  match v4s with
  | none => Except.error NewError.MissingSignerError
  | some v =>
    if service = "" then Except.error NewError.MissingServiceError
    else if region = "" then Except.error NewError.MissingRegionError
    else
      let c : Client := client.getD w.defaultClient
      let lg : Logger := cl.getD Logger.discard
      let inner : Transport := c.transport.getD w.defaultTransport
      let c2 : Client := { c with transport := some (Transport.signerWrap inner v service region lg) }
      let w2 : World := if client.isNone then { w with defaultClient := c2 } else w
      Except.ok (c2, w2)

/-- A constant formatter/clock pair input used for concrete runs. -/
def fmt0 : Nat → String := fun n => toString n

lemma normalizeURL_scheme (u : URL) : (normalizeURL u).scheme = "https" := by
  simp only [normalizeURL]
  split <;> rfl

lemma presignReq_url (fmt : Nat → String) (now : Nat) (req : Request) :
    (presignReq fmt now req).url = normalizeURL req.url := rfl

lemma presignReq_body (fmt : Nat → String) (now : Nat) (req : Request) :
    (presignReq fmt now req).body = req.body := rfl

lemma presignReq_date (fmt : Nat → String) (now : Nat) (req : Request) :
    (presignReq fmt now req).headers "Date" = [fmt now] := by
  simp [presignReq, setHeader]

/-- C2: a request whose `Authorization` header is present and starts with the
`AWS4` prefix is forwarded to the inner transport completely unchanged —
the result is the inner transport's verbatim, the only collaborator
invocation is the forward (the signer is never invoked), and the request
object is untouched (no scheme change, no path escaping, no `Date`
header write). -/
theorem presigned_skips_signing (s : Signer) (fmt : Nat → String) (now : Nat) (req : Request)
    (h : alreadySigned req = true) :
    s.RoundTrip fmt now req =
      { resp := (s.transport req).1, err := (s.transport req).2,
        events := [Event.forwarded req], finalReq := req } := by
  simp [Signer.RoundTrip, h]

/-- Concrete decorator used for the C2 witness run. -/
def sC2 : Signer :=
  { transport := fun _ => (some ⟨2⟩, none), v4 := fun _ _ _ => SignOutcome.ok (fun _ => []),
    service := "es", region := "us-east-1" }

/-- Concrete pre-signed request used for the C2 witness run. -/
def reqC2 : Request :=
  { headers := fun q => if q = "Authorization" then ["AWS4-HMAC-SHA256 Credential=AKID"] else [],
    url := { scheme := "http", rawPath := [37, 50, 67] }, body := none }

/-- C2 witness: the already-signed check accepts `reqC2` and the decorator
passes it through unchanged. -/
theorem presigned_skips_signing_witness :
    alreadySigned reqC2 = true ∧
      sC2.RoundTrip fmt0 0 reqC2 =
        { resp := (sC2.transport reqC2).1, err := (sC2.transport reqC2).2,
          events := [Event.forwarded reqC2], finalReq := reqC2 } :=
  ⟨by decide, presigned_skips_signing sC2 fmt0 0 reqC2 (by decide)⟩

/-- Concrete decorator used for the C3 counterexample run. -/
def sC3 : Signer :=
  { transport := fun _ => (some ⟨3⟩, none), v4 := fun _ _ _ => SignOutcome.ok (fun _ => []),
    service := "es", region := "us-east-1" }

/-- Concrete pre-signed request with an `http` URL for the C3 counterexample. -/
def reqC3 : Request :=
  { headers := fun q => if q = "Authorization" then ["AWS4-HMAC-SHA256 Credential=AKID"] else [],
    url := { scheme := "http", rawPath := [] }, body := none }

/-- C3 counterexample: a request that passes the already-signed check skips
scheme normalization, so after `RoundTrip` its URL scheme is still `http`,
refuting the claim for every request processed by the decorator. -/
theorem presigned_scheme_not_forced :
    ¬ (sC3.RoundTrip fmt0 0 reqC3).finalReq.url.scheme = "https" := by decide

/-- C3 (amended): for every request that does not pass the already-signed
check, after `RoundTrip` the request URL scheme is `https`, whatever the
caller set. -/
theorem unsigned_scheme_https (s : Signer) (fmt : Nat → String) (now : Nat) (req : Request)
    (h : alreadySigned req = false) :
    (s.RoundTrip fmt now req).finalReq.url.scheme = "https" := by
  simp only [Signer.RoundTrip, h, Bool.false_eq_true, if_false]
  repeat' split
  all_goals simp [presignReq, normalizeURL_scheme]

/-- Concrete unsigned request with an `http` URL for the C3 witness. -/
def reqC3w : Request :=
  { headers := fun _ => [], url := { scheme := "http", rawPath := [] }, body := none }

/-- C3 witness: on a concrete unsigned `http` request the final scheme is
`https`. -/
theorem unsigned_scheme_https_witness :
    (sC3.RoundTrip fmt0 0 reqC3w).finalReq.url.scheme = "https" :=
  unsigned_scheme_https sC3 fmt0 0 reqC3w (by decide)

/-- C7: when the body read fails, `RoundTrip` returns the read error with no
response, and no collaborator is invoked at all — the signer never runs
and the request is never forwarded. -/
theorem body_read_error_aborts (s : Signer) (fmt : Nat → String) (now : Nat) (req : Request)
    (b : Body) (msg : String) (h : alreadySigned req = false)
    (hb : req.body = some b) (hr : b.readAll = ReadOutcome.err msg) :
    (s.RoundTrip fmt now req).err = some msg ∧ (s.RoundTrip fmt now req).resp = none ∧
      (s.RoundTrip fmt now req).events = [] := by
  simp [Signer.RoundTrip, h, hb, hr]

/-- Concrete decorator used for the C7 witness run. -/
def sC7 : Signer :=
  { transport := fun _ => (some ⟨7⟩, none), v4 := fun _ _ _ => SignOutcome.ok (fun _ => []),
    service := "es", region := "us-east-1" }

/-- Concrete request whose body read fails, for the C7 witness run. -/
def reqC7 : Request :=
  { headers := fun _ => [], url := { scheme := "http", rawPath := [] },
    body := some (Body.stream (ReadOutcome.err "read failure")) }

/-- C7 witness: on a concrete request with a failing body read, the read
error is returned, no response is produced and no collaborator runs. -/
theorem body_read_error_aborts_witness :
    (sC7.RoundTrip fmt0 0 reqC7).err = some "read failure" ∧
      (sC7.RoundTrip fmt0 0 reqC7).resp = none ∧ (sC7.RoundTrip fmt0 0 reqC7).events = [] :=
  body_read_error_aborts sC7 fmt0 0 reqC7 (Body.stream (ReadOutcome.err "read failure"))
    "read failure" (by decide) rfl rfl

/-- True exactly on `SignOutcome.err`. -/
def isSignErr : SignOutcome → Bool
  | SignOutcome.err _ => true
  | SignOutcome.ok _ => false

/-- Concrete decorator whose signer always fails, for the C1 run. -/
def sC1 : Signer :=
  { transport := fun _ => (some ⟨7⟩, none), v4 := fun _ _ _ => SignOutcome.err "sign failure",
    service := "es", region := "us-east-1" }

/-- Concrete unsigned request with body bytes `[97]`, for the C1 run. -/
def reqC1 : Request :=
  { headers := fun _ => [], url := { scheme := "http", rawPath := [] },
    body := some (Body.stream (ReadOutcome.ok [97])) }

/-- C1 divergence: `sC1`'s signer fails on every invocation, yet on a request
with a body the decorator invokes the signer, then still forwards the
request to the inner transport and returns its response with no error —
the signing error is discarded (the `err` of `client.go:126` is a
variable shadowed inside the switch case, invisible to the check at
`client.go:130`). -/
theorem sign_error_with_body_is_discarded :
    isSignErr (sC1.v4 reqC1 (some [97]) 0) = true ∧
      (sC1.RoundTrip fmt0 0 reqC1).events.any isSignEvent = true ∧
      (sC1.RoundTrip fmt0 0 reqC1).events.any isForwardEvent = true ∧
      (sC1.RoundTrip fmt0 0 reqC1).err = none ∧
      (sC1.RoundTrip fmt0 0 reqC1).resp = some ⟨7⟩ := by
  refine ⟨rfl, by decide, by decide, by decide, by decide⟩

/-- Concrete decorator with a succeeding signer, for the C5 runs. -/
def sC5 : Signer :=
  { transport := fun _ => (some ⟨5⟩, none), v4 := fun _ _ _ => SignOutcome.ok (fun _ => []),
    service := "es", region := "us-east-1" }

/-- Concrete unsigned request with body bytes `[97]`, for the C5 runs. -/
def reqC5 : Request :=
  { headers := fun _ => [], url := { scheme := "http", rawPath := [] },
    body := some (Body.stream (ReadOutcome.ok [97])) }

/-- C5 counterexample: the body delivered to the inner transport is the
buffered reader over the original bytes, but that reader is not
re-readable — reading it to the end a second time yields the empty byte
list, not the same bytes again. -/
theorem replacement_body_not_rereadable :
    (sC5.RoundTrip fmt0 0 reqC5).finalReq.body = some (Body.buffered ⟨[97], 0⟩) ∧
      ¬ ((ByteReader.readToEnd ⟨[97], 0⟩).2.readToEnd.1 = (ByteReader.readToEnd ⟨[97], 0⟩).1) := by
  refine ⟨by decide, by decide⟩

/-- C5 (amended): when the body read succeeds with bytes `d`, the request
forwarded to the inner transport carries a fresh buffered reader over
exactly `d` positioned at the start; a full read of it yields `d`, but a
second read-to-end yields nothing (the reader is not rewound). -/
theorem replacement_body_bytes (s : Signer) (fmt : Nat → String) (now : Nat) (req : Request)
    (b : Body) (d : List Nat) (h : alreadySigned req = false)
    (hb : req.body = some b) (hr : b.readAll = ReadOutcome.ok d) :
    (s.RoundTrip fmt now req).finalReq.body = some (Body.buffered ⟨d, 0⟩) ∧
      Body.readAll (Body.buffered ⟨d, 0⟩) = ReadOutcome.ok d ∧
      (ByteReader.readToEnd ⟨d, 0⟩).1 = d ∧
      (ByteReader.readToEnd ⟨d, 0⟩).2.readToEnd.1 = [] := by
  refine ⟨?_, by simp [Body.readAll], by simp [ByteReader.readToEnd],
    by simp [ByteReader.readToEnd]⟩
  simp only [Signer.RoundTrip, h, Bool.false_eq_true, if_false, hb, hr]
  repeat' split
  all_goals simp [presignReq]

/-- C5 witness: the amended statement at the concrete run of `reqC5`. -/
theorem replacement_body_bytes_witness :
    (sC5.RoundTrip fmt0 0 reqC5).finalReq.body = some (Body.buffered ⟨[97], 0⟩) ∧
      Body.readAll (Body.buffered ⟨[97], 0⟩) = ReadOutcome.ok [97] ∧
      (ByteReader.readToEnd ⟨[97], 0⟩).1 = [97] ∧
      (ByteReader.readToEnd ⟨[97], 0⟩).2.readToEnd.1 = [] :=
  replacement_body_bytes sC5 fmt0 0 reqC5 (Body.stream (ReadOutcome.ok [97])) [97]
    (by decide) rfl rfl

/-- C6: on the signing path the signer is invoked exactly once — with the nil
body indicator when the request has no body, and with exactly the bytes
of the original body when the body read succeeds — and always with the
decorator's configured service, region and the current timestamp. -/
theorem signer_invocations (s : Signer) (fmt : Nat → String) (now : Nat) (req : Request)
    (h : alreadySigned req = false) :
    (req.body = none →
      (s.RoundTrip fmt now req).events.filterMap signArgsOf =
        [(none, s.service, s.region, now)]) ∧
    (∀ b d, req.body = some b → b.readAll = ReadOutcome.ok d →
      (s.RoundTrip fmt now req).events.filterMap signArgsOf =
        [(some d, s.service, s.region, now)]) := by
  constructor
  · intro hb
    simp only [Signer.RoundTrip, h, Bool.false_eq_true, if_false, hb]
    repeat' split
    all_goals simp [signArgsOf]
  · intro b d hb hr
    simp only [Signer.RoundTrip, h, Bool.false_eq_true, if_false, hb, hr]
    repeat' split
    all_goals simp [signArgsOf]

/-- Concrete decorator for the C6 witness runs. -/
def sC6 : Signer :=
  { transport := fun _ => (some ⟨6⟩, none), v4 := fun _ _ _ => SignOutcome.ok (fun _ => []),
    service := "es", region := "us-east-1" }

/-- Concrete unsigned request with no body, for the C6 witness. -/
def reqC6a : Request :=
  { headers := fun _ => [], url := { scheme := "http", rawPath := [] }, body := none }

/-- Concrete unsigned request with body bytes `[104, 105]`, for the C6
witness. -/
def reqC6b : Request :=
  { headers := fun _ => [], url := { scheme := "http", rawPath := [] },
    body := some (Body.stream (ReadOutcome.ok [104, 105])) }

/-- C6 witness: the signer invocation lists of two concrete runs, one without
and one with a body. -/
theorem signer_invocations_witness :
    (sC6.RoundTrip fmt0 3 reqC6a).events.filterMap signArgsOf =
        [(none, sC6.service, sC6.region, 3)] ∧
      (sC6.RoundTrip fmt0 3 reqC6b).events.filterMap signArgsOf =
        [(some [104, 105], sC6.service, sC6.region, 3)] :=
  ⟨(signer_invocations sC6 fmt0 3 reqC6a (by decide)).1 rfl,
   (signer_invocations sC6 fmt0 3 reqC6b (by decide)).2
     (Body.stream (ReadOutcome.ok [104, 105])) [104, 105] rfl rfl⟩

/-- True when a sign event's request carries a `Date` header equal to the
formatted timestamp that was passed to the signer in the same call. -/
def dateConsistent (fmt : Nat → String) : Event → Bool
  | Event.signed r _ _ _ ts => r.headers "Date" == [fmt ts]
  | Event.forwarded _ => true

/-- True when a sign event's timestamp argument is the given instant. -/
def signTimeIs (now : Nat) : Event → Bool
  | Event.signed _ _ _ _ ts => ts == now
  | Event.forwarded _ => true

/-- C9: in every sign invocation performed by `RoundTrip`, the request handed
to the signer carries a `Date` header whose value is exactly the
formatted form of the timestamp passed to the signer, and that timestamp
is the current time taken at the start of the round trip — header
timestamp and signature timestamp are identical. -/
theorem date_header_matches_sign_time (s : Signer) (fmt : Nat → String) (now : Nat)
    (req : Request) :
    ∀ e ∈ (s.RoundTrip fmt now req).events,
      dateConsistent fmt e = true ∧ signTimeIs now e = true := by
  intro e he
  by_cases ha : alreadySigned req = true
  · simp only [Signer.RoundTrip, ha, if_true] at he
    simp only [List.mem_singleton] at he
    subst he
    exact ⟨rfl, rfl⟩
  · simp only [Bool.not_eq_true] at ha
    simp only [Signer.RoundTrip, ha, Bool.false_eq_true, if_false] at he
    repeat' split at he
    all_goals simp only [List.mem_cons, List.mem_singleton, List.not_mem_nil, or_false] at he
    all_goals first
      | exact he.elim
      | (rcases he with rfl | rfl <;>
          exact ⟨by simp [dateConsistent, presignReq, setHeader], by simp [signTimeIs]⟩)

/-- Concrete decorator for the C9 witness run (its signer fails, so the trace
is exactly one sign event). -/
def sC9 : Signer :=
  { transport := fun _ => (some ⟨9⟩, none), v4 := fun _ _ _ => SignOutcome.err "sign failure",
    service := "es", region := "us-east-1" }

/-- Concrete unsigned request with no body, for the C9 witness. -/
def reqC9 : Request :=
  { headers := fun _ => [], url := { scheme := "http", rawPath := [] }, body := none }

/-- C9 witness: the sign event of a concrete run has a `Date` header equal to
the formatted signature timestamp, and that timestamp is the call time. -/
theorem date_header_matches_sign_time_witness :
    dateConsistent fmt0 (Event.signed (presignReq fmt0 5 reqC9) none "es" "us-east-1" 5) = true ∧
      signTimeIs 5 (Event.signed (presignReq fmt0 5 reqC9) none "es" "us-east-1" 5) = true :=
  date_header_matches_sign_time sC9 fmt0 5 reqC9
    (Event.signed (presignReq fmt0 5 reqC9) none "es" "us-east-1" 5) (by exact List.Mem.head _)

/-- C4: the construction checks run in source order — a nil signer yields
`MissingSignerError` whatever the other arguments, then an empty service
yields `MissingServiceError`, then an empty region yields
`MissingRegionError` — and with a signer, nonempty service and nonempty
region the construction succeeds even when client and logger are both
nil. -/
theorem New_validation (v4s : Option Nat) (client : Option Client) (svc reg : String)
    (cl : Option Logger) (w : World) :
    (v4s = none → New v4s client svc reg cl w = Except.error NewError.MissingSignerError) ∧
    (∀ v, v4s = some v → svc = "" →
      New v4s client svc reg cl w = Except.error NewError.MissingServiceError) ∧
    (∀ v, v4s = some v → svc ≠ "" → reg = "" →
      New v4s client svc reg cl w = Except.error NewError.MissingRegionError) ∧
    (∀ v, v4s = some v → svc ≠ "" → reg ≠ "" →
      isOkE (New v4s none svc reg none w) = true) := by
  refine ⟨?_, ?_, ?_, ?_⟩
  · rintro rfl; rfl
  · rintro v rfl rfl; rfl
  · rintro v rfl hs rfl; simp [New, hs]
  · rintro v rfl hs hr; simp [New, hs, hr, isOkE]

/-- A concrete world (no transport on the default client) for the C4
witness. -/
def w0 : World := { defaultClient := { transport := none }, defaultTransport := Transport.base 0 }

/-- C4 witness: the four validation outcomes at concrete arguments. -/
theorem New_validation_witness :
    New none none "es" "us-east-1" none w0 = Except.error NewError.MissingSignerError ∧
      New (some 1) none "" "us-east-1" none w0 = Except.error NewError.MissingServiceError ∧
      New (some 1) none "es" "" none w0 = Except.error NewError.MissingRegionError ∧
      isOkE (New (some 1) none "es" "us-east-1" none w0) = true :=
  ⟨(New_validation none none "es" "us-east-1" none w0).1 rfl,
   (New_validation (some 1) none "" "us-east-1" none w0).2.1 1 rfl rfl,
   (New_validation (some 1) none "es" "" none w0).2.2.1 1 rfl (by decide) rfl,
   (New_validation (some 1) none "es" "us-east-1" none w0).2.2.2 1 rfl (by decide) (by decide)⟩

/-- C10: called with a nil client (and valid arguments), `New` takes the
process-wide default client, captures its transport (falling back to the
default transport) as the inner transport, and overwrites the default
client's transport field in place with the signing decorator — the world
after the call records the mutated default client, which is also the
client returned to the caller. -/
theorem New_overwrites_default_client (v : Nat) (svc reg : String) (cl : Option Logger)
    (w : World) (hs : svc ≠ "") (hr : reg ≠ "") :
    New (some v) none svc reg cl w =
      Except.ok
        ({ transport := some (Transport.signerWrap
              (w.defaultClient.transport.getD w.defaultTransport) v svc reg
              (cl.getD Logger.discard)) },
         { w with defaultClient :=
            { transport := some (Transport.signerWrap
                (w.defaultClient.transport.getD w.defaultTransport) v svc reg
                (cl.getD Logger.discard)) } }) := by
  simp [New, hs, hr]

/-- A concrete world whose default client already has a transport, for the
C10 witness. -/
def wC10 : World :=
  { defaultClient := { transport := some (Transport.base 3) },
    defaultTransport := Transport.base 0 }

/-- C10 witness: at concrete arguments, the default client of the resulting
world is the returned client and its transport is the decorator wrapping
the captured inner transport. -/
theorem New_overwrites_default_client_witness :
    New (some 2) none "es" "us-east-1" none wC10 =
      Except.ok
        ({ transport := some (Transport.signerWrap (Transport.base 3) 2 "es" "us-east-1"
              Logger.discard) },
         { wC10 with defaultClient :=
            { transport := some (Transport.signerWrap (Transport.base 3) 2 "es" "us-east-1"
                Logger.discard) } }) :=
  New_overwrites_default_client 2 "es" "us-east-1" none wC10 (by decide) (by decide)

lemma containsSeq_cons [BEq α] (pat : List α) (x : α) (xs : List α) :
    containsSeq pat (x :: xs) = (startsWith pat (x :: xs) || containsSeq pat xs) := rfl

lemma hexDigit_ne_37 (n : Nat) : (37 == hexDigit n) = false := by
  rw [beq_eq_false_iff_ne]
  unfold hexDigit
  split <;> omega

lemma hexPair_not_comma {c : Nat} (hc : c ≠ 44) :
    ((50 == hexDigit (c / 16)) && (67 == hexDigit (c % 16))) = false := by
  by_cases h : 50 = hexDigit (c / 16)
  · by_cases h2 : 67 = hexDigit (c % 16)
    · exfalso
      have d1 : c / 16 = 2 := by unfold hexDigit at h; split at h <;> omega
      have d2 : c % 16 = 12 := by unfold hexDigit at h2; split at h2 <;> omega
      have := Nat.div_add_mod c 16
      omega
    · rw [beq_eq_false_iff_ne.mpr h2, Bool.and_false]
  · rw [beq_eq_false_iff_ne.mpr h, Bool.false_and]

/-- Escaping a path with no literal comma produces a path with no `%2C`
occurrence: a `%` appears in the output only as the head of an escape
triple, and the triple `%2C` would encode exactly the comma byte 44. -/
lemma noComma_escape : ∀ p : List Nat, 44 ∉ p → containsSeq p2c (EscapePath p false) = false := by
  intro p
  induction p with
  | nil => intro _; rfl
  | cons c cs ih =>
    intro h
    have hc44 : c ≠ 44 := fun e => h (by rw [← e]; exact List.mem_cons_self c cs)
    have htail : 44 ∉ cs := fun m => h (List.mem_cons_of_mem _ m)
    show containsSeq p2c (escapeByte c false ++ EscapePath cs false) = false
    by_cases hk : (noEscape c || (c == 47 && !false)) = true
    · have hb : escapeByte c false = [c] := by
        unfold escapeByte
        exact if_pos hk
      have hc37 : (37 == c) = false := by
        rw [beq_eq_false_iff_ne]
        intro e
        rw [← e] at hk
        exact absurd hk (by decide)
      rw [hb]
      show containsSeq p2c (c :: EscapePath cs false) = false
      rw [containsSeq_cons]
      have h1 : startsWith p2c (c :: EscapePath cs false) = false := by
        show ((37 == c) && startsWith [50, 67] (EscapePath cs false)) = false
        rw [hc37, Bool.false_and]
      rw [h1, Bool.false_or]
      exact ih htail
    · have hb : escapeByte c false = [37, hexDigit (c / 16), hexDigit (c % 16)] := by
        unfold escapeByte
        exact if_neg hk
      rw [hb]
      show containsSeq p2c
        (37 :: hexDigit (c / 16) :: hexDigit (c % 16) :: EscapePath cs false) = false
      rw [containsSeq_cons, containsSeq_cons, containsSeq_cons]
      have hA : startsWith p2c
          (37 :: hexDigit (c / 16) :: hexDigit (c % 16) :: EscapePath cs false) = false := by
        show ((37 == 37) &&
          ((50 == hexDigit (c / 16)) &&
            ((67 == hexDigit (c % 16)) && startsWith [] (EscapePath cs false)))) = false
        have hself : (37 == 37) = true := by decide
        have hnil : startsWith ([] : List Nat) (EscapePath cs false) = true := rfl
        rw [hself, Bool.true_and, hnil, Bool.and_true]
        exact hexPair_not_comma hc44
      have hB : startsWith p2c
          (hexDigit (c / 16) :: hexDigit (c % 16) :: EscapePath cs false) = false := by
        show ((37 == hexDigit (c / 16)) &&
          startsWith [50, 67] (hexDigit (c % 16) :: EscapePath cs false)) = false
        rw [hexDigit_ne_37, Bool.false_and]
      have hC : startsWith p2c (hexDigit (c % 16) :: EscapePath cs false) = false := by
        show ((37 == hexDigit (c % 16)) && startsWith [50, 67] (EscapePath cs false)) = false
        rw [hexDigit_ne_37, Bool.false_and]
      rw [hA, hB, hC, Bool.false_or, Bool.false_or, Bool.false_or]
      exact ih htail

/-- C8 counterexample: for the raw path `%2C,` (bytes 37, 50, 67, 44 — it
contains `%2C` and a literal comma), applying the scheme/path
normalization twice differs from applying it once: the comma escapes to
`%2C`, which triggers a second full re-escape. -/
theorem normalize_not_idempotent :
    ¬ (normalizeURL (normalizeURL { scheme := "http", rawPath := [37, 50, 67, 44] }) =
        normalizeURL { scheme := "http", rawPath := [37, 50, 67, 44] }) := by decide

/-- C8 (amended): the scheme/path normalization is idempotent for every URL
whose raw path, when it contains `%2C`, contains no literal comma byte —
escaping such a path yields a path with no `%2C`, so the second pass
changes nothing. -/
theorem normalize_idempotent_no_comma (u : URL)
    (h : containsSeq p2c u.rawPath = true → 44 ∉ u.rawPath) :
    normalizeURL (normalizeURL u) = normalizeURL u := by
  by_cases hc : containsSeq p2c u.rawPath = true
  · have h44 := h hc
    have e1 : normalizeURL u = { scheme := "https", rawPath := EscapePath u.rawPath false } := by
      simp [normalizeURL, hc]
    rw [e1]
    have hno := noComma_escape u.rawPath h44
    simp [normalizeURL, hno]
  · have hc' : containsSeq p2c u.rawPath = false := by
      revert hc; cases containsSeq p2c u.rawPath <;> simp
    have e1 : normalizeURL u = { scheme := "https", rawPath := u.rawPath } := by
      simp [normalizeURL, hc']
    rw [e1]
    simp [normalizeURL, hc']

/-- C8 witness: the path `%2Ca` (bytes 37, 50, 67, 97) contains `%2C` but no
comma, and normalization on it is idempotent. -/
theorem normalize_idempotent_no_comma_witness :
    (containsSeq p2c [37, 50, 67, 97] = true → 44 ∉ [37, 50, 67, 97]) ∧
      normalizeURL (normalizeURL { scheme := "http", rawPath := [37, 50, 67, 97] }) =
        normalizeURL { scheme := "http", rawPath := [37, 50, 67, 97] } :=
  ⟨by decide, normalize_idempotent_no_comma _ (by decide)⟩

end AwsSigning
